import Mathlib

/-!
Verification of the queryman statement-resolution and parameter-binding engine.

The Go sources (`domain.go`, `queryman.go`, `result.go`, and the binder/executor
file) are embedded shallowly: Go strings become `List Char` (Go indexes bytes;
all query text in play is ASCII), `interface{}` parameter values become the
`Value` inductive, stateful drivers become explicit state passing over a
scripted proxy, and fallible code returns sum types.  The driver `Normalizer`
collaborator is an external interface whose implementation file is not under
`src/`; it enters the model only as an abstract function argument or, where a
concrete byte is needed, via `holdByte` modelled from the spec.
-/

namespace Queryman

/- ===================== data model (domain.go) ===================== -/

/-- Element kinds of a statement, from the `eleType*` constant block in `domain.go`. -/
inductive declareElementType where
  | eleTypeUnknown
  | eleTypeInsert
  | eleTypeUpdate
  | eleTypeSelect
  | eleTypeIf
deriving DecidableEq, Repr

/-- Bind modes of a column, from the `columnBindType*` constant block in `domain.go`. -/
inductive columnBindType where
  | columnBindTypeNormal
  | columnBindTypeArray
deriving DecidableEq, Repr

/-- `ColumnBind` from `domain.go`: bound name, 1-based placeholder position in the
held query text, and bind mode. -/
structure ColumnBind where
  name : String
  holdPos : Nat
  bindType : columnBindType
deriving DecidableEq, Repr

/-- `IfClause` from `domain.go`: the synthetic unique token `id`, the parameter key
tested, the SQL fragment, and the presence policy flag `exist`. -/
structure IfClause where
  id : List Char
  key : String
  query : List Char
  exist : Bool
deriving DecidableEq, Repr

/-- `QueryStatement` from `domain.go`. -/
structure QueryStatement where
  eleType : declareElementType
  Id : String
  Query : List Char
  clause : List IfClause
  columnMention : List ColumnBind
  HoldedQuery : List Char
deriving DecidableEq, Repr

/-- `QueryStatement.hasArrayBind` from `domain.go`: true iff some column binding is
array-mode (the nil-slice guard and the loop collapse to `List.any`). -/
def QueryStatement.hasArrayBind (q : QueryStatement) : Bool :=
  q.columnMention.any fun v => v.bindType = columnBindType.columnBindTypeArray

/-- `QueryStatement.HasCondition` from `domain.go`: true iff `clause` is non-empty. -/
def QueryStatement.HasCondition (stmt : QueryStatement) : Bool :=
  !stmt.clause.isEmpty

/-- `QueryStatement.clone` from `domain.go`: copies the scalar fields and rebuilds
the clause and binding slices by an append loop. -/
def QueryStatement.clone (stmt : QueryStatement) : QueryStatement :=
  { eleType := stmt.eleType
    Id := stmt.Id
    Query := stmt.Query
    HoldedQuery := stmt.HoldedQuery
    clause := stmt.clause.foldl (fun acc v => acc ++ [v]) []
    columnMention := stmt.columnMention.foldl (fun acc v => acc ++ [v]) [] }

/- ===================== parameter values ===================== -/

/-- Shapes of a Go `interface{}` parameter value, as the binder's reflection
dispatch distinguishes them.  `nilv` is the nil interface (the zero value a Go
map lookup yields for a missing key); `ifaceSlice` is a value of static type
`[]interface{}` (the type-assertion fast path); `typedSlice` is any other
slice/array (the `reflect` path); `mapV` is a `map[string]interface{}`;
`typedMapV` is a map of any other type; `structV` is a struct value given by its
exported fields. -/
inductive Value where
  | nilv
  | scalar (n : Int)
  | ifaceSlice (xs : List Value)
  | typedSlice (xs : List Value)
  | mapV (m : List (String × Value))
  | typedMapV (m : List (String × Value))
  | structV (fields : List (String × Value))

/- ===================== errors ===================== -/

/-- Error values produced by the binder and executor, one constructor per
`errors.New` sentinel or `fmt.Errorf` site that the embedded code can reach. -/
inductive GoErr where
  | badConn
  | nilPtr
  | noRows
  | noInsertId
  | needsPtr
  | ifaceNotSupported
  | ptrNotSupported
  | invalidMapType
  | scriptExhausted
  | shapeNotSlice (i : Nat)
  | shapeNotMap (i : Nat)
  | bindCountMismatchAt (defined : Nat) (i : Nat) (len : Nat)
  | notFoundFromMap (b : ColumnBind)
  | notFoundStructList (b : ColumnBind)
  | lastIdFail (s : String)
  | prepareFail (s : String)
  | execFail (s : String)
  | panicErr (s : String)
deriving DecidableEq, Repr

/-- Errors of the column-bind resolvers (`resolveColumnBindInList/Map`). -/
inductive BindErr where
  | notFound (who : String) (b : ColumnBind)
  | countMismatch (defined : Nat) (args : Nat)
  | multiArray
deriving DecidableEq, Repr

/-- Go message text of each bind error, reproducing the `fmt.Errorf` formats
(`ColumnBind.String` prints `name/pos/type`, elided here to the name). -/
def BindErr.message : BindErr → String
  | .notFound who b => who ++ " : not found \x22" ++ b.name ++ "\x22 from parameter values"
  | .countMismatch d a => "binding parameter count mismatch. defined=" ++ toString d ++ ", args=" ++ toString a
  | .multiArray => "this version only support 1 IN array binding"

/- ===================== array (IN-clause) expansion ===================== -/

/-- Placeholder byte used by the driver normalizer in held query text.
Modelled from the spec: the normalizer source file is not under `src/`; the
spec's `Normalizer` rewrites named tokens into native positional placeholder
syntax, whose byte is `?` for the default driver. -/
def holdByte : Char := '?'

/-- `flattenArray` from the binder source.  Returns the flattened element list
and the reported element count.  In the `[]interface{}` branch the Go code
initialises `varCnt := 0` and assigns `varCnt = i` inside the loop, so a
non-empty `[]interface{}` reports its last index (length - 1), while the
`reflect` branch for other slice types returns `s.Len()`.  A nil interface
panics in Go (`reflect.TypeOf(nil).Kind()`), modelled as `none`. -/
def flattenArray : Value → Option (List Value × Nat)
  | .nilv => none
  | .scalar n => some ([.scalar n], 1)
  | .mapV m => some ([.mapV m], 1)
  | .typedMapV m => some ([.typedMapV m], 1)
  | .structV f => some ([.structV f], 1)
  | .ifaceSlice xs => some (xs, if xs.length = 0 then 0 else xs.length - 1)
  | .typedSlice xs => some (xs, xs.length)

/-- `reformArrayHold` from the binder source: `cnt` comma-separated hold bytes. -/
def reformArrayHold (cnt : Nat) : List Char :=
  if cnt = 0 then []
  else if cnt = 1 then [holdByte]
  else List.intersperse ',' (List.replicate cnt holdByte)

/-- `reformHoldQuery` from the binder source: splices `reformArrayHold cnt` over
the single placeholder byte at the 1-based position `columnBind.holdPos` of the
held query (`holdQuery[:holdPos-1] + hold + holdQuery[holdPos:]`). -/
def reformHoldQuery (holdQuery : List Char) (columnBind : ColumnBind) (cnt : Nat) : List Char :=
  holdQuery.take (columnBind.holdPos - 1) ++ reformArrayHold cnt ++ holdQuery.drop columnBind.holdPos

/-- Result of one run of the shared array-binding loop body found in both
`resolveColumnBindInList` and `resolveColumnBindInMap` (the two Go loops are
textually identical apart from where `found` comes from). -/
inductive ArrayLoopRes where
  | done (param : List Value) (holded : List Char) (touch : Bool)
  | failed (e : BindErr)
  | panicked

/-- The array-mode binding loop: walks column bindings paired with their bound
values, appending normal values directly, flattening array values, and
rewriting the held query once when an array column expands to more than one
element; a second expanding array column fails with the single-IN-binding
error. -/
def arrayBindLoop : List (ColumnBind × Value) → List Value → List Char → Bool → ArrayLoopRes
  | [], param, holded, touch => .done param holded touch
  | (b, v) :: rest, param, holded, touch =>
    match b.bindType with
    | .columnBindTypeNormal => arrayBindLoop rest (param ++ [v]) holded touch
    | .columnBindTypeArray =>
      match flattenArray v with
      | none => .panicked
      | some (arr, cnt) =>
        if cnt > 1 then
          if touch then .failed .multiArray
          else arrayBindLoop rest (param ++ arr) (reformHoldQuery holded b cnt) true
        else arrayBindLoop rest (param ++ arr) holded touch

/-- Outcome of a column-bind resolver.  Go additionally returns the partial
query/params alongside an error; no caller reads them, so they are dropped. -/
inductive BindOutcome where
  | ok (effectiveQuery : List Char) (param : List Value)
  | bindErr (e : BindErr)
  | panicked

/-- Ordered named lookup of every declared column in a string-keyed mapping,
the loop shared by `resolveColumnBindInMap` (non-array path),
`doExecWithNestedMap` and `doExecWithStructList`: the first missing name is
returned as the error. -/
def lookupParams (binds : List ColumnBind) (m : List (String × Value)) : Except ColumnBind (List Value) :=
  match binds with
  | [] => .ok []
  | b :: rest =>
    match m.lookup b.name with
    | none => .error b
    | some v =>
      match lookupParams rest m with
      | .error b2 => .error b2
      | .ok ps => .ok (v :: ps)

/-- Go map indexing `m[k]`: yields the zero value (nil interface) for a missing
key. -/
def mapGet (m : List (String × Value)) (k : String) : Value :=
  match m.lookup k with
  | some v => v
  | none => .nilv

/-- `resolveColumnBindInList` from the binder source.  `resolveH` stands for the
external `queryNormalizer.resolveHolding` collaborator.  Without an array bind
the query and args pass through unchanged; otherwise the statement is cloned,
the arg count checked, and the array loop run over bindings zipped with args
(Go indexes `args[i]` under the same length guard). -/
def resolveColumnBindInList (resolveH : List Char → List Char) (stmt : QueryStatement)
    (args : List Value) : BindOutcome :=
  if !stmt.hasArrayBind then .ok stmt.Query args
  else
    let c := stmt.clone
    if c.columnMention.length > args.length then
      .bindErr (.countMismatch stmt.columnMention.length args.length)
    else
      match arrayBindLoop (c.columnMention.zip args) [] c.HoldedQuery false with
      | .panicked => .panicked
      | .failed e => .bindErr e
      | .done param holded touch =>
        .ok (if touch then resolveH holded else c.Query) param

/-- `resolveColumnBindInMap` from the binder source.  Without an array bind each
declared column name is looked up with a presence check; with an array bind the
loop reads `m[v.Name()]` with no presence check, so a missing name silently
binds the nil interface zero value. -/
def resolveColumnBindInMap (resolveH : List Char → List Char) (stmt : QueryStatement)
    (m : List (String × Value)) : BindOutcome :=
  if !stmt.hasArrayBind then
    match lookupParams stmt.columnMention m with
    | .error b => .bindErr (.notFound "queryWithMap" b)
    | .ok param => .ok stmt.Query param
  else
    let c := stmt.clone
    match arrayBindLoop (c.columnMention.map fun b => (b, mapGet m b.name)) [] c.HoldedQuery false with
    | .panicked => .panicked
    | .failed e => .bindErr e
    | .done param holded touch =>
      .ok (if touch then resolveH holded else c.Query) param

/- ===================== conditional refinement (domain.go) ===================== -/

/-- Go `strings.Replace(s, old, new, -1)`: replace every non-overlapping
occurrence of `old` in `s`, scanning left to right.  Clause tokens are never
empty (they are generated as a sentinel-wrapped sequence number), so the
empty-pattern edge case of the Go function is irrelevant and modelled as a
plain copy. -/
def stringsReplace (s old new : List Char) : List Char :=
  match s with
  | [] => []
  | c :: rest =>
    if old.length = 0 then c :: stringsReplace rest old new
    else if old.isPrefixOf (c :: rest) then
      new ++ stringsReplace (rest.drop (old.length - 1)) old new
    else
      c :: stringsReplace rest old new
termination_by s.length
decreasing_by
  all_goals simp [List.length_drop]
  omega

/-- The clause-substitution loop of `QueryStatement.RefineStatement` in
`domain.go`, acting on the working query text: with a nil presence map every
token is replaced by the empty string; otherwise the `exist` policy decides
between fragment and empty string based on key presence. -/
def refineQueryText (params : Option (List String)) (clauses : List IfClause)
    (q : List Char) : List Char :=
  clauses.foldl
    (fun query v =>
      match params with
      | none => stringsReplace query v.id []
      | some ks =>
        if v.exist then
          if ks.contains v.key then stringsReplace query v.id v.query
          else stringsReplace query v.id []
        else
          if !ks.contains v.key then stringsReplace query v.id v.query
          else stringsReplace query v.id [])
    q

/-- `QueryStatement.RefineStatement` from `domain.go`.  The statement is cloned,
the clause tokens are substituted into the clone's query text, and the result
is passed once through the driver normalizer; `norm` stands for the external
`queryNormalizer.normalize` collaborator (an interface whose implementation is
out of scope), and the presence map carries only its key set because the Go
code tests only key membership. -/
def RefineStatement (norm : QueryStatement → QueryStatement) (stmt : QueryStatement)
    (params : Option (List String)) : QueryStatement :=
  let refined := stmt.clone
  norm { refined with Query := refineQueryText params stmt.clause refined.Query }

/- ===================== batch executor (binder source + result.go) ===================== -/

/-- `ExecMultiResult` from `result.go`: ordered insert-id list plus cumulative
affected-row count. -/
structure ExecMultiResult where
  idList : List Int := []
  rowAffected : Int := 0
deriving DecidableEq, Repr

/-- `ExecMultiResult.addInsertId` from `result.go`: appends at the end (the
nil-slice initialisation collapses away in the list model). -/
def ExecMultiResult.addInsertId (p : ExecMultiResult) (id : Int) : ExecMultiResult :=
  { p with idList := p.idList ++ [id] }

/-- `ExecMultiResult.GetInsertIdList` from `result.go`. -/
def ExecMultiResult.GetInsertIdList (p : ExecMultiResult) : List Int :=
  p.idList

/-- `ExecMultiResult.LastInsertId` from `result.go`: the no-insert-id error with
value 0 on an empty list, otherwise element 0 of the id list. -/
def ExecMultiResult.LastInsertId (p : ExecMultiResult) : Int × Option GoErr :=
  match p.idList with
  | [] => (0, some .noInsertId)
  | x :: _ => (x, none)

/-- `ExecMultiResult.RowsAffected` from `result.go`: always the accumulated
count with a nil error. -/
def ExecMultiResult.RowsAffected (p : ExecMultiResult) : Int × Option GoErr :=
  (p.rowAffected, none)

/-- Scripted outcome of one `pstmt.Exec` driver call: either a result carrying
the affected-row count and the driver's `LastInsertId` answer, or a failure. -/
inductive RowExec where
  | success (affected : Int) (lastId : Except String Int)
  | failure (e : GoErr)

/-- State of the scripted driver proxy: the outcomes the driver will return for
successive `Exec` calls, plus counters observing how many `prepare` and `Exec`
calls were issued. -/
structure ProxySt where
  script : List RowExec
  prepareCalls : Nat := 0
  execCalls : Nat := 0

/-- One `pstmt.Exec` call against the scripted proxy: consumes the next
scripted outcome (an exhausted script is a driver failure, unreachable under
the theorems' hypotheses). -/
def popExec (st : ProxySt) : RowExec × ProxySt :=
  match st.script with
  | [] => (.failure .scriptExhausted, { st with execCalls := st.execCalls + 1 })
  | o :: rest => (o, { script := rest, prepareCalls := st.prepareCalls, execCalls := st.execCalls + 1 })

/-- Reflection kind test `Kind() == Slice || Kind() == Array` used by the
nested-list batch validation. -/
def valueIsSliceKind : Value → Bool
  | .ifaceSlice _ => true
  | .typedSlice _ => true
  | _ => false

/-- Reflection kind test `Kind() == Map` used by the nested-map batch
validation. -/
def valueIsMapKind : Value → Bool
  | .mapV _ => true
  | .typedMapV _ => true
  | _ => false

/-- Go `reflect.ValueOf(v).Len()` for the collection shapes the validators
query it on. -/
def valueLen : Value → Nat
  | .ifaceSlice xs => xs.length
  | .typedSlice xs => xs.length
  | .mapV m => m.length
  | .typedMapV m => m.length
  | _ => 0

/-- Validation loop of `doExecWithNestedList`: every element must be a slice or
array and supply at least `defined` values; the first violation (with its
index) is the error.  A nil element would panic in Go's `reflect.TypeOf`;
modelled as a panic error. -/
def validateNestedList (defined : Nat) : Nat → List Value → Option GoErr
  | _, [] => none
  | i, .nilv :: _ => some (.panicErr ("nil batch element at " ++ toString i))
  | i, v :: rest =>
    if !valueIsSliceKind v then some (.shapeNotSlice i)
    else if defined > valueLen v then some (.bindCountMismatchAt defined i (valueLen v))
    else validateNestedList defined (i + 1) rest

/-- Validation loop of `doExecWithNestedMap`: every element must be a map and
supply at least `defined` entries. -/
def validateNestedMap (defined : Nat) : Nat → List Value → Option GoErr
  | _, [] => none
  | i, .nilv :: _ => some (.panicErr ("nil batch element at " ++ toString i))
  | i, v :: rest =>
    if !valueIsMapKind v then some (.shapeNotMap i)
    else if defined > valueLen v then some (.bindCountMismatchAt defined i (valueLen v))
    else validateNestedMap defined (i + 1) rest

/-- The iterate phase of `doExecWithNestedList`: for each element, in order,
execute against the shared prepared statement, accumulate the affected-row
count, and for insert statements capture the generated id (a failing
`LastInsertId` is a hard error).  Returns the proxy state, the index reached
(`len args` on success, the failing index otherwise), the accumulated result
and the error.  The per-row `flattenToList` argument marshalling does not
influence the scripted driver outcome and is elided. -/
def nestedExecLoop (ele : declareElementType) :
    List Value → Nat → ProxySt → ExecMultiResult →
    ProxySt × Nat × ExecMultiResult × Option GoErr
  | [], i, st, result => (st, i, result, none)
  | _v :: rest, i, st, result =>
    match popExec st with
    | (.failure e, st2) => (st2, i, result, some e)
    | (.success affectedCount lastId, st2) =>
      let result2 := { result with rowAffected := result.rowAffected + affectedCount }
      if ele = declareElementType.eleTypeInsert then
        match lastId with
        | .error s => (st2, i, result2, some (.lastIdFail s))
        | .ok id => nestedExecLoop ele rest (i + 1) st2 (result2.addInsertId id)
      else
        nestedExecLoop ele rest (i + 1) st2 result2

/-- `doExecWithNestedList` from the binder source: validate every element, then
acquire one prepared-statement handle, then iterate.  `prepErr` is the
driver-side outcome of `prepare` (nil in all claims). -/
def doExecWithNestedList (prepErr : Option GoErr) (st : ProxySt) (stmt : QueryStatement)
    (args : List Value) : ProxySt × Nat × ExecMultiResult × Option GoErr :=
  match validateNestedList stmt.columnMention.length 0 args with
  | some e => (st, 0, {}, some e)
  | none =>
    let st2 := { st with prepareCalls := st.prepareCalls + 1 }
    match prepErr with
    | some e => (st2, 0, {}, some e)
    | none => nestedExecLoop stmt.eleType args 0 st2 {}

/-- The iterate phase of `doExecWithNestedMap`: each element must be of type
`map[string]interface{}`, every declared column is looked up with a presence
check, then the row executes as in the list loop. -/
def nestedMapLoop (ele : declareElementType) (binds : List ColumnBind) :
    List Value → Nat → ProxySt → ExecMultiResult →
    ProxySt × Nat × ExecMultiResult × Option GoErr
  | [], i, st, result => (st, i, result, none)
  | v :: rest, i, st, result =>
    match v with
    | .mapV m =>
      match lookupParams binds m with
      | .error b => (st, i, result, some (.notFoundFromMap b))
      | .ok _param =>
        match popExec st with
        | (.failure e, st2) => (st2, i, result, some e)
        | (.success affectedCount lastId, st2) =>
          let result2 := { result with rowAffected := result.rowAffected + affectedCount }
          if ele = declareElementType.eleTypeInsert then
            match lastId with
            | .error s => (st2, i, result2, some (.lastIdFail s))
            | .ok id => nestedMapLoop ele binds rest (i + 1) st2 (result2.addInsertId id)
          else
            nestedMapLoop ele binds rest (i + 1) st2 result2
    | _ => (st, i, result, some .invalidMapType)

/-- `doExecWithNestedMap` from the binder source. -/
def doExecWithNestedMap (prepErr : Option GoErr) (st : ProxySt) (stmt : QueryStatement)
    (args : List Value) : ProxySt × Nat × ExecMultiResult × Option GoErr :=
  match validateNestedMap stmt.columnMention.length 0 args with
  | some e => (st, 0, {}, some e)
  | none =>
    let st2 := { st with prepareCalls := st.prepareCalls + 1 }
    match prepErr with
    | some e => (st2, 0, {}, some e)
    | none => nestedMapLoop stmt.eleType stmt.columnMention args 0 st2 {}

/-- The iterate phase of `doExecWithStructList`: each element's exported fields
are flattened to a name-to-value mapping (`flattenStructToMap`), every declared
column is looked up with a presence check, then the row executes.  A non-struct
element makes `flattenStructToMap` panic in Go (`reflect` `NumField` on a
non-struct). -/
def structExecLoop (ele : declareElementType) (binds : List ColumnBind) :
    List Value → Nat → ProxySt → ExecMultiResult →
    ProxySt × Nat × ExecMultiResult × Option GoErr
  | [], i, st, result => (st, i, result, none)
  | v :: rest, i, st, result =>
    match v with
    | .structV fields =>
      match lookupParams binds fields with
      | .error b => (st, i, result, some (.notFoundStructList b))
      | .ok _param =>
        match popExec st with
        | (.failure e, st2) => (st2, i, result, some e)
        | (.success affectedCount lastId, st2) =>
          let result2 := { result with rowAffected := result.rowAffected + affectedCount }
          if ele = declareElementType.eleTypeInsert then
            match lastId with
            | .error s => (st2, i, result2, some (.lastIdFail s))
            | .ok id => structExecLoop ele binds rest (i + 1) st2 (result2.addInsertId id)
          else
            structExecLoop ele binds rest (i + 1) st2 result2
    | _ => (st, i, result, some (.panicErr ("flattenStructToMap on non-struct element " ++ toString i)))

/-- `doExecWithStructList` from the binder source: unlike the list and map batch
paths there is no upfront validation pass; the prepared-statement handle is
acquired first and every per-element check happens inside the iterate loop. -/
def doExecWithStructList (prepErr : Option GoErr) (st : ProxySt) (stmt : QueryStatement)
    (args : List Value) : ProxySt × Nat × ExecMultiResult × Option GoErr :=
  let st2 := { st with prepareCalls := st.prepareCalls + 1 }
  match prepErr with
  | some e => (st2, 0, {}, some e)
  | none => structExecLoop stmt.eleType stmt.columnMention args 0 st2 {}

/-- `execWithNestedList` from the binder source: one retry of the unexecuted
suffix when (and only when) the error is the transient bad-connection
condition, merging the suffix's ids and affected count on retry success. -/
def execWithNestedList (prepErr : Option GoErr) (st : ProxySt) (stmt : QueryStatement)
    (args : List Value) : ProxySt × ExecMultiResult × Option GoErr :=
  match doExecWithNestedList prepErr st stmt args with
  | (st1, executed, result, err) =>
    match err with
    | some GoErr.badConn =>
      match doExecWithNestedList prepErr st1 stmt (args.drop executed) with
      | (st2, _, nextResult, err2) =>
        match err2 with
        | none =>
          (st2,
           { idList := result.idList ++ nextResult.idList
             rowAffected := result.rowAffected + nextResult.rowAffected },
           none)
        | some e2 => (st2, result, some e2)
    | _ => (st1, result, err)

/- ===================== result materializer (result.go) ===================== -/

/-- Shape of the single destination argument passed to `Scan`, as the
reflection dispatch in `result.go` distinguishes it. -/
inductive DestKind where
  | notPtr
  | nilPtr
  | ptrInterface
  | ptrPtr
  | ptrStructPlain
  | ptrStructValuer
  | ptrScalar
deriving DecidableEq, Repr

/-- State of an open `*sql.Rows` cursor: how many rows remain and the cursor's
sticky error. -/
structure RowsSt where
  pending : Nat
  errVal : Option GoErr
deriving DecidableEq, Repr

/-- `QueryResult` from `result.go` (multi-row): the attached prepared statement
(present or nil), the stored construction error, and the cursor. -/
structure QueryResultSt where
  pstmt : Bool
  errF : Option GoErr
  rows : Option RowsSt
deriving DecidableEq, Repr

/-- `newQueryResultError` from `result.go`. -/
def newQueryResultError (e : GoErr) : QueryResultSt :=
  { pstmt := false, errF := some e, rows := none }

/-- `QueryResult.GetError` from `result.go`. -/
def QueryResultGetError (r : QueryResultSt) : Option GoErr :=
  r.errF

/-- `QueryResult.Scan` from `result.go`.  The function has a named return value
`err`; the stored-error guard is `if r.err != nil { return err }`, which
returns the still-unassigned named return (nil), not `r.err`.  `scanRes` is the
driver-side outcome of the final `rows.Scan` (or of `scanToStruct`'s column
fetch and scan), an external collaborator result. -/
def QueryResultScan (r : QueryResultSt) (dest : DestKind) (scanRes : Option GoErr) : Option GoErr :=
  if r.errF.isSome then none
  else
    match r.rows with
    | none => some (GoErr.panicErr "invalid memory address or nil pointer dereference")
    | some rs =>
      if rs.errVal.isSome then rs.errVal
      else
        match dest with
        | .notPtr => some GoErr.needsPtr
        | .nilPtr => some GoErr.nilPtr
        | .ptrInterface => some GoErr.ifaceNotSupported
        | .ptrPtr => some GoErr.ptrNotSupported
        | _ => scanRes

/-- `QueryRowResult` from `result.go` (single-row): transaction flag, attached
prepared statement, stored error, and cursor. -/
structure QueryRowResultSt where
  transaction : Bool
  pstmt : Bool
  errF : Option GoErr
  rows : Option RowsSt
deriving DecidableEq, Repr

/-- Body of `QueryRowResult.Scan` before the deferred cleanup runs: stored
error, cursor error, `Next` over an exhausted cursor (the no-rows error),
destination dispatch, driver scan.  A nil cursor dereference panics and is
recovered into an error by the outer recover defer. -/
def scanBodyRow (r : QueryRowResultSt) (dest : DestKind) (scanRes : Option GoErr) : Option GoErr :=
  if r.errF.isSome then r.errF
  else
    match r.rows with
    | none => some (GoErr.panicErr "invalid memory address or nil pointer dereference")
    | some rs =>
      if rs.errVal.isSome then rs.errVal
      else if rs.pending = 0 then
        some GoErr.noRows
      else
        match dest with
        | .notPtr => some GoErr.needsPtr
        | .nilPtr => some GoErr.nilPtr
        | .ptrInterface => some GoErr.ifaceNotSupported
        | .ptrPtr => some GoErr.ptrNotSupported
        | _ => scanRes

/-- Observable outcome of one `QueryRowResult.Scan` call: the post-call
receiver state, how many times `rows.Close` and `pstmt.Close` ran during the
call, and the returned error. -/
structure ScanOut where
  state : QueryRowResultSt
  rowsCloseCalls : Nat
  stmtCloseCalls : Nat
  err : Option GoErr
deriving DecidableEq, Repr

/-- `QueryRowResult.Scan` from `result.go`: the body computes the error, then
the deferred cleanup closes the cursor when one is attached and nils the field,
and, outside a transaction, closes the attached prepared statement and nils the
field; the deferred recover has already been folded into `scanBodyRow`. -/
def QueryRowResultScan (r : QueryRowResultSt) (dest : DestKind) (scanRes : Option GoErr) : ScanOut :=
  let err := scanBodyRow r dest scanRes
  { state :=
      { transaction := r.transaction
        pstmt := if r.transaction then r.pstmt else false
        errF := r.errF
        rows := none }
    rowsCloseCalls := if r.rows.isSome then 1 else 0
    stmtCloseCalls := if !r.transaction && r.pstmt then 1 else 0
    err := err }

/- ===================== batch run bookkeeping ===================== -/

/-- A scripted driver outcome on which the nested-list iterate loop proceeds to
the next row: a successful execution whose `LastInsertId` answer is available
whenever the statement is insert-kind. -/
def goodRow (ele : declareElementType) : RowExec → Bool
  | .success _ (Except.ok _) => true
  | .success _ (Except.error _) =>
    if ele = declareElementType.eleTypeInsert then false else true
  | .failure _ => false

/-- How one successful row outcome folds into the accumulated batch result:
affected count always added, insert id appended for insert-kind statements. -/
def accRow (ele : declareElementType) (a : ExecMultiResult) : RowExec → ExecMultiResult
  | .success aff (Except.ok id) =>
    let a2 := { a with rowAffected := a.rowAffected + aff }
    if ele = declareElementType.eleTypeInsert then a2.addInsertId id else a2
  | .success aff (Except.error _) => { a with rowAffected := a.rowAffected + aff }
  | .failure _ => a

/-- Merge of two batch results, as `execWithNestedList` merges the suffix rerun
into the already-accumulated result. -/
def mergeRes (a b : ExecMultiResult) : ExecMultiResult :=
  { idList := a.idList ++ b.idList, rowAffected := a.rowAffected + b.rowAffected }

/- ===================== helper lemmas ===================== -/

theorem foldl_append_singleton {α : Type} (l acc : List α) :
    l.foldl (fun a v => a ++ [v]) acc = acc ++ l := by
  induction l generalizing acc with
  | nil => simp
  | cons x xs ih => simp [List.foldl_cons, ih]

theorem clone_eq (stmt : QueryStatement) : stmt.clone = stmt := by
  cases stmt
  simp [QueryStatement.clone, foldl_append_singleton]

theorem foldl_addInsertId (l : List Int) (acc : ExecMultiResult) :
    (l.foldl ExecMultiResult.addInsertId acc).idList = acc.idList ++ l := by
  induction l generalizing acc with
  | nil => simp
  | cons x xs ih => simp [List.foldl_cons, ih, ExecMultiResult.addInsertId]

/- ===================== claim theorems ===================== -/

/-- C1: the claim says that binding a non-empty list of `cnt` elements to the
single array-mode column yields exactly `cnt` placeholders at that column and a
flat argument list of length (normal columns) + `cnt`.  The code violates this
for a `[]interface{}` value: `flattenArray` reports the last loop index instead
of the length, so a 3-element list is expanded into only 2 placeholders while
all 3 elements (plus the normal column) are bound — 3 placeholders against 4
arguments. -/
theorem c1_flattenArray_undercount :
    resolveColumnBindInList (fun q => q)
      { eleType := .eleTypeUpdate, Id := "c1", Query := ['?', ' ', '?'], clause := [],
        columnMention :=
          [{ name := "a", holdPos := 1, bindType := .columnBindTypeNormal },
           { name := "b", holdPos := 3, bindType := .columnBindTypeArray }],
        HoldedQuery := ['?', ' ', '?'] }
      [Value.scalar 10, Value.ifaceSlice [Value.scalar 1, Value.scalar 2, Value.scalar 3]]
      = BindOutcome.ok ['?', ' ', '?', ',', '?']
          [Value.scalar 10, Value.scalar 1, Value.scalar 2, Value.scalar 3]
    ∧ List.count holdByte ['?', ' ', '?', ',', '?'] = 3
    ∧ flattenArray (Value.ifaceSlice [Value.scalar 1, Value.scalar 2, Value.scalar 3])
      = some ([Value.scalar 1, Value.scalar 2, Value.scalar 3], 2) := by
  refine ⟨rfl, by decide, rfl⟩

/-- C7: the claim says two array-mode columns that each receive a collection
with more than one element always fail with the single-IN-binding error.  For
two `[]interface{}` collections of exactly 2 elements each, `flattenArray`
reports count 1 for both (last index instead of length), so no error is raised
and the call binds 4 arguments against the unexpanded 2-placeholder query. -/
theorem c7_two_arrays_no_error :
    resolveColumnBindInList (fun q => q)
      { eleType := .eleTypeUpdate, Id := "c7", Query := ['?', ' ', '?'], clause := [],
        columnMention :=
          [{ name := "a", holdPos := 1, bindType := .columnBindTypeArray },
           { name := "b", holdPos := 3, bindType := .columnBindTypeArray }],
        HoldedQuery := ['?', ' ', '?'] }
      [Value.ifaceSlice [Value.scalar 1, Value.scalar 2],
       Value.ifaceSlice [Value.scalar 3, Value.scalar 4]]
      = BindOutcome.ok ['?', ' ', '?']
          [Value.scalar 1, Value.scalar 2, Value.scalar 3, Value.scalar 4] := by
  rfl

/-- C5: refinement operates on a value clone of the registered statement: the
clone reproduces the query text, the clause sequence and the column-binding
sequence of the original, and refining the registered statement is the same as
refining its clone, so two refinements with the same presence map see the same
registered statement and yield the same refined statement.  `norm` ranges over
every possible driver normalizer. -/
theorem c5_refine_clone_invariant (norm : QueryStatement → QueryStatement)
    (stmt : QueryStatement) (m : Option (List String)) :
    stmt.clone.Query = stmt.Query ∧ stmt.clone.clause = stmt.clause ∧
    stmt.clone.columnMention = stmt.columnMention ∧
    RefineStatement norm stmt m = RefineStatement norm stmt.clone m := by
  refine ⟨?_, ?_, ?_, ?_⟩ <;> rw [clone_eq]

/-- C6: refining with no presence map at all replaces every clause's unique
token by the empty string, regardless of the clause's presence policy: the
refined statement is the normalized clone whose query has every token replaced
by the empty string, and the substituted text is invariant under arbitrary
reassignment of the `exist` policy flags. -/
theorem c6_nil_params_drops_all_clauses (norm : QueryStatement → QueryStatement)
    (stmt : QueryStatement) :
    RefineStatement norm stmt none
      = norm { stmt with
               Query := stmt.clause.foldl (fun q v => stringsReplace q v.id []) stmt.Query }
    ∧ ∀ f : IfClause → Bool,
        refineQueryText none (stmt.clause.map fun c => { c with exist := f c }) stmt.Query
          = refineQueryText none stmt.clause stmt.Query := by
  constructor
  · rw [RefineStatement, clone_eq]
    exact rfl
  · intro f
    simp [refineQueryText, List.foldl_map]

/-- C9: a `QueryResult` constructed with a stored error returns nil from
`Scan` (the guard returns the unassigned named return value, not the stored
error field), so the construction error is observable only through
`GetError`. -/
theorem c9_stored_error_guard_returns_nil (e : GoErr) (dest : DestKind)
    (scanRes : Option GoErr) :
    QueryResultScan (newQueryResultError e) dest scanRes = none ∧
    QueryResultGetError (newQueryResultError e) = some e :=
  ⟨rfl, rfl⟩

/-- C10: `LastInsertId` of a batch result returns the first captured insert id
(the head of the list built by successive `addInsertId` calls) with a nil
error, returns 0 with the no-insert-id error when no id was captured, and
`RowsAffected` always returns the accumulated count with a nil error. -/
theorem c10_lastInsertId_returns_first :
    (∀ (x : Int) (xs : List Int),
       ExecMultiResult.LastInsertId (List.foldl ExecMultiResult.addInsertId {} (x :: xs))
         = (x, none)) ∧
    ExecMultiResult.LastInsertId {} = (0, some GoErr.noInsertId) ∧
    ∀ r : ExecMultiResult, ExecMultiResult.RowsAffected r = (r.rowAffected, none) := by
  refine ⟨?_, rfl, fun r => rfl⟩
  intro x xs
  have h := foldl_addInsertId (x :: xs) {}
  simp only [ExecMultiResult.LastInsertId, h]
  simp

theorem lookupParams_error_of_missing (binds : List ColumnBind) (m : List (String × Value))
    (h : ∃ b ∈ binds, (m.lookup b.name).isNone = true) :
    ∃ b, lookupParams binds m = .error b ∧ b ∈ binds ∧ (m.lookup b.name).isNone = true := by
  induction binds with
  | nil => simp at h
  | cons b rest ih =>
    cases hb : m.lookup b.name with
    | none =>
      exact ⟨b, by simp [lookupParams, hb], by simp, by simp [hb]⟩
    | some v =>
      obtain ⟨b0, hb0mem, hb0⟩ := h
      rcases List.mem_cons.mp hb0mem with rfl | hmem
      · rw [hb] at hb0; simp at hb0
      · obtain ⟨b2, hlp, hbm, hbn⟩ := ih ⟨b0, hmem, hb0⟩
        exact ⟨b2, by simp [lookupParams, hb, hlp], List.mem_cons_of_mem _ hbm, hbn⟩

/-- C2 (amended): whenever binding resolves through named lookup with a
presence check — the map path of a statement *without* array-mode bindings, the
map-batch per-element lookup, and the struct-batch per-element lookup — a
declared column name missing from the mapping makes the binding fail with the
corresponding not-found error before any driver call for that row.  (For a
statement *with* array-mode bindings the map path performs no presence check;
see the counterexample.) -/
theorem c2_named_lookup_missing_errors :
    (∀ (resolveH : List Char → List Char) (stmt : QueryStatement) (m : List (String × Value)),
       stmt.hasArrayBind = false →
       (∃ b ∈ stmt.columnMention, (m.lookup b.name).isNone = true) →
       ∃ b, b ∈ stmt.columnMention ∧ (m.lookup b.name).isNone = true ∧
         resolveColumnBindInMap resolveH stmt m = .bindErr (.notFound "queryWithMap" b)) ∧
    (∀ (ele : declareElementType) (binds : List ColumnBind) (m : List (String × Value))
       (rest : List Value) (i : Nat) (st : ProxySt) (acc : ExecMultiResult),
       (∃ b ∈ binds, (m.lookup b.name).isNone = true) →
       ∃ b, b ∈ binds ∧ (m.lookup b.name).isNone = true ∧
         nestedMapLoop ele binds (Value.mapV m :: rest) i st acc
           = (st, i, acc, some (.notFoundFromMap b))) ∧
    (∀ (ele : declareElementType) (binds : List ColumnBind) (fields : List (String × Value))
       (rest : List Value) (i : Nat) (st : ProxySt) (acc : ExecMultiResult),
       (∃ b ∈ binds, (fields.lookup b.name).isNone = true) →
       ∃ b, b ∈ binds ∧ (fields.lookup b.name).isNone = true ∧
         structExecLoop ele binds (Value.structV fields :: rest) i st acc
           = (st, i, acc, some (.notFoundStructList b))) := by
  refine ⟨?_, ?_, ?_⟩
  · intro resolveH stmt m harr hmiss
    obtain ⟨b, hlp, hbm, hbn⟩ := lookupParams_error_of_missing stmt.columnMention m hmiss
    exact ⟨b, hbm, hbn, by simp [resolveColumnBindInMap, harr, hlp]⟩
  · intro ele binds m rest i st acc hmiss
    obtain ⟨b, hlp, hbm, hbn⟩ := lookupParams_error_of_missing binds m hmiss
    exact ⟨b, hbm, hbn, by simp [nestedMapLoop, hlp]⟩
  · intro ele binds fields rest i st acc hmiss
    obtain ⟨b, hlp, hbm, hbn⟩ := lookupParams_error_of_missing binds fields hmiss
    exact ⟨b, hbm, hbn, by simp [structExecLoop, hlp]⟩

/-- C2 counterexample: for a statement *with* an array-mode binding, the map
path reads `m[name]` with no presence check, so a mapping missing the declared
normal column `a` binds the nil zero value and succeeds instead of failing with
the not-found error — refuting the claim's "this holds ... for statements with
array-mode bindings". -/
theorem c2_array_bind_map_skips_presence_check :
    (({ name := "a", holdPos := 1, bindType := .columnBindTypeNormal } : ColumnBind) ∈
        [({ name := "a", holdPos := 1, bindType := .columnBindTypeNormal } : ColumnBind),
         { name := "b", holdPos := 3, bindType := .columnBindTypeArray }])
    ∧ (([("b", Value.typedSlice [Value.scalar 7])] : List (String × Value)).lookup "a").isNone = true
    ∧ resolveColumnBindInMap (fun q => q)
        { eleType := .eleTypeSelect, Id := "c2", Query := ['?', ' ', '?'], clause := [],
          columnMention :=
            [{ name := "a", holdPos := 1, bindType := .columnBindTypeNormal },
             { name := "b", holdPos := 3, bindType := .columnBindTypeArray }],
          HoldedQuery := ['?', ' ', '?'] }
        [("b", Value.typedSlice [Value.scalar 7])]
        = BindOutcome.ok ['?', ' ', '?'] [Value.nilv, Value.scalar 7] := by
  refine ⟨by decide, rfl, rfl⟩

/-- C2 witness: a concrete no-array-bind statement with an empty mapping. -/
theorem c2_named_lookup_missing_errors_witness :
    (QueryStatement.hasArrayBind
        { eleType := .eleTypeSelect, Id := "w2", Query := ['?'], clause := [],
          columnMention := [{ name := "a", holdPos := 1, bindType := .columnBindTypeNormal }],
          HoldedQuery := ['?'] } = false)
    ∧ (∃ b ∈ [({ name := "a", holdPos := 1, bindType := .columnBindTypeNormal } : ColumnBind)],
         (([] : List (String × Value)).lookup b.name).isNone = true)
    ∧ ∃ b, b ∈ [({ name := "a", holdPos := 1, bindType := .columnBindTypeNormal } : ColumnBind)] ∧
        (([] : List (String × Value)).lookup b.name).isNone = true ∧
        resolveColumnBindInMap (fun q => q)
          { eleType := .eleTypeSelect, Id := "w2", Query := ['?'], clause := [],
            columnMention := [{ name := "a", holdPos := 1, bindType := .columnBindTypeNormal }],
            HoldedQuery := ['?'] }
          [] = .bindErr (.notFound "queryWithMap" b) :=
  ⟨rfl, by decide,
   c2_named_lookup_missing_errors.1 (fun q => q)
     { eleType := .eleTypeSelect, Id := "w2", Query := ['?'], clause := [],
       columnMention := [{ name := "a", holdPos := 1, bindType := .columnBindTypeNormal }],
       HoldedQuery := ['?'] }
     [] rfl (by decide)⟩

/-- C3 (amended): for nested-list and nested-map batches, any shape violation
or element with fewer bindable values than the declared column bindings aborts
the batch before any statement handle is prepared and before any row executes
(the proxy state is returned untouched, with an empty result and the first
violation's error).  Struct batches have no such pre-validation pass; see the
counterexample. -/
theorem c3_list_map_batches_validate_before_prepare :
    (∀ (prepErr : Option GoErr) (st : ProxySt) (stmt : QueryStatement) (args : List Value)
       (e : GoErr),
       validateNestedList stmt.columnMention.length 0 args = some e →
       doExecWithNestedList prepErr st stmt args = (st, 0, {}, some e)) ∧
    (∀ (prepErr : Option GoErr) (st : ProxySt) (stmt : QueryStatement) (args : List Value)
       (e : GoErr),
       validateNestedMap stmt.columnMention.length 0 args = some e →
       doExecWithNestedMap prepErr st stmt args = (st, 0, {}, some e)) := by
  constructor
  · intro prepErr st stmt args e h
    simp [doExecWithNestedList, h]
  · intro prepErr st stmt args e h
    simp [doExecWithNestedMap, h]

/-- C3 counterexample: a struct batch violating the binding contract does not
abort before the statement handle is prepared.  With the first element missing
the declared column, the handle is still prepared (`prepareCalls = 1`); with a
later element missing it, the earlier row has already executed
(`execCalls = 1`, one row's effects in the result) — refuting both "before any
statement handle is prepared" and "zero rows executed" for struct batches. -/
theorem c3_struct_batch_prepares_before_validation :
    doExecWithStructList none ⟨[], 0, 0⟩
      { eleType := .eleTypeInsert, Id := "c3", Query := ['?'], clause := [],
        columnMention := [{ name := "a", holdPos := 1, bindType := .columnBindTypeNormal }],
        HoldedQuery := ['?'] }
      [Value.structV [("b", Value.scalar 1)]]
      = (⟨[], 1, 0⟩, 0, {},
         some (.notFoundStructList { name := "a", holdPos := 1, bindType := .columnBindTypeNormal }))
    ∧ doExecWithStructList none ⟨[RowExec.success 1 (Except.ok 7)], 0, 0⟩
        { eleType := .eleTypeInsert, Id := "c3", Query := ['?'], clause := [],
          columnMention := [{ name := "a", holdPos := 1, bindType := .columnBindTypeNormal }],
          HoldedQuery := ['?'] }
        [Value.structV [("a", Value.scalar 1)], Value.structV [("b", Value.scalar 2)]]
        = (⟨[], 1, 1⟩, 1, { idList := [7], rowAffected := 1 },
           some (.notFoundStructList { name := "a", holdPos := 1, bindType := .columnBindTypeNormal })) :=
  ⟨rfl, rfl⟩

/-- C3 witness: a concrete nested-list batch whose sole element is not a
slice. -/
theorem c3_list_map_batches_validate_before_prepare_witness :
    validateNestedList
        (QueryStatement.columnMention
          { eleType := .eleTypeUpdate, Id := "w3", Query := ['?'], clause := [],
            columnMention := [{ name := "a", holdPos := 1, bindType := .columnBindTypeNormal }],
            HoldedQuery := ['?'] }).length 0 [Value.scalar 5]
      = some (.shapeNotSlice 0)
    ∧ doExecWithNestedList none ⟨[], 0, 0⟩
        { eleType := .eleTypeUpdate, Id := "w3", Query := ['?'], clause := [],
          columnMention := [{ name := "a", holdPos := 1, bindType := .columnBindTypeNormal }],
          HoldedQuery := ['?'] }
        [Value.scalar 5]
      = (⟨[], 0, 0⟩, 0, {}, some (.shapeNotSlice 0)) :=
  ⟨by decide,
   c3_list_map_batches_validate_before_prepare.1 none ⟨[], 0, 0⟩
     { eleType := .eleTypeUpdate, Id := "w3", Query := ['?'], clause := [],
       columnMention := [{ name := "a", holdPos := 1, bindType := .columnBindTypeNormal }],
       HoldedQuery := ['?'] }
     [Value.scalar 5] (.shapeNotSlice 0) (by decide)⟩

/-- C8: on every exit path of a single-row `Scan` the row cursor, when one is
attached, is closed exactly once and the field nilled, and outside a
transaction the attached prepared statement is closed exactly once and nilled
(inside a transaction it is left untouched); and a cursor that yields zero rows
makes `Scan` return the no-rows error. -/
theorem c8_single_row_scan_release :
    (∀ (r : QueryRowResultSt) (dest : DestKind) (scanRes : Option GoErr),
       ((QueryRowResultScan r dest scanRes).rowsCloseCalls
          = if r.rows.isSome then 1 else 0) ∧
       (QueryRowResultScan r dest scanRes).state.rows = none ∧
       (r.transaction = false → r.pstmt = true →
         (QueryRowResultScan r dest scanRes).stmtCloseCalls = 1 ∧
         (QueryRowResultScan r dest scanRes).state.pstmt = false) ∧
       (r.transaction = true →
         (QueryRowResultScan r dest scanRes).stmtCloseCalls = 0 ∧
         (QueryRowResultScan r dest scanRes).state.pstmt = r.pstmt)) ∧
    (∀ (r : QueryRowResultSt) (rs : RowsSt) (dest : DestKind) (scanRes : Option GoErr),
       r.errF = none → r.rows = some rs → rs.errVal = none → rs.pending = 0 →
       (QueryRowResultScan r dest scanRes).err = some GoErr.noRows) := by
  constructor
  · intro r dest scanRes
    refine ⟨rfl, rfl, ?_, ?_⟩
    · intro ht hp
      simp [QueryRowResultScan, ht, hp]
    · intro ht
      simp [QueryRowResultScan, ht]
  · intro r rs dest scanRes h1 h2 h3 h4
    simp [QueryRowResultScan, scanBodyRow, h1, h2, h3, h4]

/-- C8 witness: a zero-row cursor with an attached statement, outside a
transaction. -/
theorem c8_single_row_scan_release_witness :
    (QueryRowResultScan ⟨false, true, none, some ⟨0, none⟩⟩ DestKind.ptrScalar none).err
      = some GoErr.noRows
    ∧ (QueryRowResultScan ⟨false, true, none, some ⟨0, none⟩⟩ DestKind.ptrScalar none).rowsCloseCalls = 1
    ∧ (QueryRowResultScan ⟨false, true, none, some ⟨0, none⟩⟩ DestKind.ptrScalar none).stmtCloseCalls = 1 :=
  ⟨c8_single_row_scan_release.2 ⟨false, true, none, some ⟨0, none⟩⟩ ⟨0, none⟩
     DestKind.ptrScalar none rfl rfl rfl rfl,
   (c8_single_row_scan_release.1 ⟨false, true, none, some ⟨0, none⟩⟩ DestKind.ptrScalar none).1,
   ((c8_single_row_scan_release.1 ⟨false, true, none, some ⟨0, none⟩⟩ DestKind.ptrScalar none).2.2.1
      rfl rfl).1⟩

theorem nestedExecLoop_success (ele : declareElementType) :
    ∀ (rows : List Value) (outs extra : List RowExec) (i p c : Nat) (acc : ExecMultiResult),
      outs.length = rows.length → (∀ x ∈ outs, goodRow ele x = true) →
      nestedExecLoop ele rows i ⟨outs ++ extra, p, c⟩ acc
        = (⟨extra, p, c + rows.length⟩, i + rows.length, outs.foldl (accRow ele) acc, none) := by
  intro rows
  induction rows with
  | nil =>
    intro outs extra i p c acc hlen _
    have houts : outs = [] := List.length_eq_zero.mp (by simpa using hlen)
    subst houts
    simp [nestedExecLoop]
  | cons v vr ih =>
    intro outs extra i p c acc hlen hgood
    match outs with
    | [] => simp at hlen
    | o :: or =>
      have hor : or.length = vr.length := by simpa using hlen
      have hgo : goodRow ele o = true := hgood o (by simp)
      have hgor : ∀ x ∈ or, goodRow ele x = true := fun x hx => hgood x (by simp [hx])
      match o with
      | RowExec.failure e => simp [goodRow] at hgo
      | RowExec.success aff lastId =>
        by_cases hins : ele = declareElementType.eleTypeInsert
        · match lastId with
          | Except.error s => rw [hins] at hgo; simp [goodRow] at hgo
          | Except.ok id =>
            have step := ih or extra (i + 1) p (c + 1)
              (ExecMultiResult.addInsertId
                { acc with rowAffected := acc.rowAffected + aff } id) hor hgor
            simp only [nestedExecLoop, popExec, List.cons_append, if_pos hins]
            rw [step]
            have h1 : c + 1 + vr.length = c + (vr.length + 1) := by omega
            have h2 : i + 1 + vr.length = i + (vr.length + 1) := by omega
            rw [h1, h2]
            simp [List.foldl_cons, accRow, hins]
        · have step := ih or extra (i + 1) p (c + 1)
            { acc with rowAffected := acc.rowAffected + aff } hor hgor
          simp only [nestedExecLoop, popExec, List.cons_append, if_neg hins]
          rw [step]
          have h1 : c + 1 + vr.length = c + (vr.length + 1) := by omega
          have h2 : i + 1 + vr.length = i + (vr.length + 1) := by omega
          rw [h1, h2]
          match lastId with
          | Except.ok id => simp [List.foldl_cons, accRow, hins]
          | Except.error s => simp [List.foldl_cons, accRow, hins]

theorem nestedExecLoop_badconn (ele : declareElementType) :
    ∀ (outs : List RowExec) (rows : List Value) (rest : List RowExec) (i p c : Nat)
      (acc : ExecMultiResult),
      (∀ x ∈ outs, goodRow ele x = true) → outs.length < rows.length →
      nestedExecLoop ele rows i ⟨outs ++ RowExec.failure GoErr.badConn :: rest, p, c⟩ acc
        = (⟨rest, p, c + outs.length + 1⟩, i + outs.length,
           outs.foldl (accRow ele) acc, some GoErr.badConn) := by
  intro outs
  induction outs with
  | nil =>
    intro rows rest i p c acc _ hlt
    match rows with
    | [] => simp at hlt
    | v :: vr =>
      simp [nestedExecLoop, popExec]
  | cons o or ih =>
    intro rows rest i p c acc hgood hlt
    match rows with
    | [] => simp at hlt
    | v :: vr =>
      have hor : or.length < vr.length := by simpa using hlt
      have hgo : goodRow ele o = true := hgood o (by simp)
      have hgor : ∀ x ∈ or, goodRow ele x = true := fun x hx => hgood x (by simp [hx])
      match o with
      | RowExec.failure e => simp [goodRow] at hgo
      | RowExec.success aff lastId =>
        by_cases hins : ele = declareElementType.eleTypeInsert
        · match lastId with
          | Except.error s => rw [hins] at hgo; simp [goodRow] at hgo
          | Except.ok id =>
            have step := ih vr rest (i + 1) p (c + 1)
              (ExecMultiResult.addInsertId
                { acc with rowAffected := acc.rowAffected + aff } id) hgor hor
            simp only [nestedExecLoop, popExec, List.cons_append, if_pos hins]
            rw [step]
            have h1 : c + 1 + or.length + 1 = c + (or.length + 1) + 1 := by omega
            have h2 : i + 1 + or.length = i + (or.length + 1) := by omega
            rw [h1, h2]
            simp [List.foldl_cons, accRow, hins]
        · have step := ih vr rest (i + 1) p (c + 1)
            { acc with rowAffected := acc.rowAffected + aff } hgor hor
          simp only [nestedExecLoop, popExec, List.cons_append, if_neg hins]
          rw [step]
          have h1 : c + 1 + or.length + 1 = c + (or.length + 1) + 1 := by omega
          have h2 : i + 1 + or.length = i + (or.length + 1) := by omega
          rw [h1, h2]
          match lastId with
          | Except.ok id => simp [List.foldl_cons, accRow, hins]
          | Except.error s => simp [List.foldl_cons, accRow, hins]

theorem accRow_mergeRes (ele : declareElementType) (a b : ExecMultiResult) (o : RowExec) :
    accRow ele (mergeRes a b) o = mergeRes a (accRow ele b o) := by
  match o with
  | RowExec.failure e => simp [accRow]
  | RowExec.success aff (Except.error s) =>
    simp [accRow, mergeRes, add_assoc]
  | RowExec.success aff (Except.ok id) =>
    by_cases hins : ele = declareElementType.eleTypeInsert
    · simp [accRow, mergeRes, hins, ExecMultiResult.addInsertId, add_assoc]
    · simp [accRow, mergeRes, hins, add_assoc]

theorem foldl_accRow_mergeRes (ele : declareElementType) (outs : List RowExec)
    (a b : ExecMultiResult) :
    outs.foldl (accRow ele) (mergeRes a b) = mergeRes a (outs.foldl (accRow ele) b) := by
  induction outs generalizing b with
  | nil => simp
  | cons o or ih => simp [List.foldl_cons, accRow_mergeRes, ih]

theorem mergeRes_empty (a : ExecMultiResult) : mergeRes a {} = a := by
  cases a; simp [mergeRes]

theorem foldl_accRow_split (ele : declareElementType) (outs : List RowExec) (k : Nat) :
    outs.foldl (accRow ele) {}
      = mergeRes ((outs.take k).foldl (accRow ele) {}) ((outs.drop k).foldl (accRow ele) {}) := by
  conv_lhs => rw [← List.take_append_drop k outs]
  rw [List.foldl_append]
  rw [← mergeRes_empty ((outs.take k).foldl (accRow ele) {})]
  rw [foldl_accRow_mergeRes]
  rw [mergeRes_empty]

theorem validateNestedList_index_free (defined : Nat) :
    ∀ (args : List Value) (i j : Nat),
      validateNestedList defined i args = none → validateNestedList defined j args = none := by
  intro args
  induction args with
  | nil => intro i j _; rfl
  | cons v rest ih =>
    intro i j h
    cases v with
    | nilv => simp [validateNestedList] at h
    | scalar n => simp [validateNestedList, valueIsSliceKind] at h
    | mapV m => simp [validateNestedList, valueIsSliceKind] at h
    | typedMapV m => simp [validateNestedList, valueIsSliceKind] at h
    | structV f => simp [validateNestedList, valueIsSliceKind] at h
    | ifaceSlice xs =>
      simp only [validateNestedList, valueIsSliceKind, Bool.not_true, Bool.false_eq_true,
        if_false] at h ⊢
      split at h
      · exact absurd h (by simp)
      · rw [if_neg (by assumption)]
        exact ih (i + 1) (j + 1) h
    | typedSlice xs =>
      simp only [validateNestedList, valueIsSliceKind, Bool.not_true, Bool.false_eq_true,
        if_false] at h ⊢
      split at h
      · exact absurd h (by simp)
      · rw [if_neg (by assumption)]
        exact ih (i + 1) (j + 1) h

theorem validateNestedList_cons (defined i : Nat) (v : Value) (rest : List Value)
    (h : validateNestedList defined i (v :: rest) = none) :
    validateNestedList defined (i + 1) rest = none := by
  cases v with
  | nilv => simp [validateNestedList] at h
  | scalar n => simp [validateNestedList, valueIsSliceKind] at h
  | mapV m => simp [validateNestedList, valueIsSliceKind] at h
  | typedMapV m => simp [validateNestedList, valueIsSliceKind] at h
  | structV f => simp [validateNestedList, valueIsSliceKind] at h
  | ifaceSlice xs =>
    simp only [validateNestedList, valueIsSliceKind, Bool.not_true, Bool.false_eq_true,
      if_false] at h
    split at h
    · exact absurd h (by simp)
    · exact h
  | typedSlice xs =>
    simp only [validateNestedList, valueIsSliceKind, Bool.not_true, Bool.false_eq_true,
      if_false] at h
    split at h
    · exact absurd h (by simp)
    · exact h

theorem validateNestedList_drop (defined : Nat) :
    ∀ (k : Nat) (args : List Value) (i : Nat),
      validateNestedList defined i args = none →
      validateNestedList defined 0 (args.drop k) = none := by
  intro k
  induction k with
  | zero =>
    intro args i h
    exact validateNestedList_index_free defined args i 0 h
  | succ k ih =>
    intro args i h
    match args with
    | [] => rfl
    | v :: rest =>
      exact ih rest (i + 1) (validateNestedList_cons defined i v rest h)

/-- C4: for a nested-list batch over `N` elements where the driver fails with
the transient bad-connection condition at index `k` and the single retry over
the suffix from `k` onward fully succeeds, the merged result (concatenated
insert-id list and summed affected-row count) equals the result of a
non-faulting run over all `N` elements. -/
theorem c4_badconn_retry_merges (stmt : QueryStatement) (args : List Value)
    (outs : List RowExec) (k : Nat)
    (hval : validateNestedList stmt.columnMention.length 0 args = none)
    (hlen : outs.length = args.length)
    (hgood : ∀ x ∈ outs, goodRow stmt.eleType x = true)
    (hk : k < args.length) :
    (execWithNestedList none
        ⟨outs.take k ++ RowExec.failure GoErr.badConn :: outs.drop k, 0, 0⟩ stmt args).2
      = ((doExecWithNestedList none ⟨outs, 0, 0⟩ stmt args).2.2.1, none) := by
  have htklen : (outs.take k).length = k := by
    simp only [List.length_take]
    omega
  have htkgood : ∀ x ∈ outs.take k, goodRow stmt.eleType x = true :=
    fun x hx => hgood x (List.take_subset k outs hx)
  have hdpgood : ∀ x ∈ outs.drop k, goodRow stmt.eleType x = true :=
    fun x hx => hgood x (List.drop_subset k outs hx)
  have hdroplen : (outs.drop k).length = (args.drop k).length := by
    simp [List.length_drop, hlen]
  have hvdrop : validateNestedList stmt.columnMention.length 0 (args.drop k) = none :=
    validateNestedList_drop stmt.columnMention.length k args 0 hval
  have hfirst :
      doExecWithNestedList none
          ⟨outs.take k ++ RowExec.failure GoErr.badConn :: outs.drop k, 0, 0⟩ stmt args
        = (⟨outs.drop k, 1, k + 1⟩, k,
           (outs.take k).foldl (accRow stmt.eleType) {}, some GoErr.badConn) := by
    simp only [doExecWithNestedList, hval]
    have h := nestedExecLoop_badconn stmt.eleType (outs.take k) args (outs.drop k) 0 1 0 {}
      htkgood (by rw [htklen]; exact hk)
    simpa [htklen] using h
  have hsecond :
      doExecWithNestedList none ⟨outs.drop k, 1, k + 1⟩ stmt (args.drop k)
        = (⟨[], 2, k + 1 + (args.drop k).length⟩, (args.drop k).length,
           (outs.drop k).foldl (accRow stmt.eleType) {}, none) := by
    simp only [doExecWithNestedList, hvdrop]
    have h := nestedExecLoop_success stmt.eleType (args.drop k) (outs.drop k) [] 0 2 (k + 1) {}
      hdroplen hdpgood
    simpa using h
  have hfull :
      doExecWithNestedList none ⟨outs, 0, 0⟩ stmt args
        = (⟨[], 1, args.length⟩, args.length, outs.foldl (accRow stmt.eleType) {}, none) := by
    simp only [doExecWithNestedList, hval]
    have h := nestedExecLoop_success stmt.eleType args outs [] 0 1 0 {} hlen hgood
    simpa [hlen] using h
  rw [execWithNestedList, hfirst]
  simp only
  rw [hsecond]
  simp only
  rw [hfull]
  simp only
  rw [foldl_accRow_split stmt.eleType outs k]
  simp [mergeRes]

/-- C4 witness: a two-element insert batch, bad connection at index 1, retry of
the one-element suffix succeeds. -/
theorem c4_badconn_retry_merges_witness :
    validateNestedList
        (QueryStatement.columnMention
          { eleType := .eleTypeInsert, Id := "w4", Query := ['?'], clause := [],
            columnMention := [{ name := "a", holdPos := 1, bindType := .columnBindTypeNormal }],
            HoldedQuery := ['?'] }).length 0
        [Value.typedSlice [Value.scalar 1], Value.typedSlice [Value.scalar 2]] = none
    ∧ (∀ x ∈ [RowExec.success 1 (Except.ok 10), RowExec.success 1 (Except.ok 11)],
         goodRow declareElementType.eleTypeInsert x = true)
    ∧ (execWithNestedList none
         ⟨[RowExec.success 1 (Except.ok 10), RowExec.success 1 (Except.ok 11)].take 1
            ++ RowExec.failure GoErr.badConn
              :: [RowExec.success 1 (Except.ok 10), RowExec.success 1 (Except.ok 11)].drop 1,
           0, 0⟩
         { eleType := .eleTypeInsert, Id := "w4", Query := ['?'], clause := [],
           columnMention := [{ name := "a", holdPos := 1, bindType := .columnBindTypeNormal }],
           HoldedQuery := ['?'] }
         [Value.typedSlice [Value.scalar 1], Value.typedSlice [Value.scalar 2]]).2
        = ((doExecWithNestedList none
              ⟨[RowExec.success 1 (Except.ok 10), RowExec.success 1 (Except.ok 11)], 0, 0⟩
              { eleType := .eleTypeInsert, Id := "w4", Query := ['?'], clause := [],
                columnMention := [{ name := "a", holdPos := 1, bindType := .columnBindTypeNormal }],
                HoldedQuery := ['?'] }
              [Value.typedSlice [Value.scalar 1], Value.typedSlice [Value.scalar 2]]).2.2.1,
           none) :=
  ⟨by decide, by decide,
   c4_badconn_retry_merges
     { eleType := .eleTypeInsert, Id := "w4", Query := ['?'], clause := [],
       columnMention := [{ name := "a", holdPos := 1, bindType := .columnBindTypeNormal }],
       HoldedQuery := ['?'] }
     [Value.typedSlice [Value.scalar 1], Value.typedSlice [Value.scalar 2]]
     [RowExec.success 1 (Except.ok 10), RowExec.success 1 (Except.ok 11)]
     1 (by decide) (by decide) (by decide) (by decide)⟩

end Queryman
